import Mathlib

/-!
Verification of the custom Allure report helper (`utils/allure_helper.py`).

The Python module assembles Allure result documents from free-text log
files.  We embed its pure computational content shallowly: strings become
`String` / `List Char`, timestamps become rationals (seconds) and integers
(milliseconds), the filesystem becomes an explicit lookup function, and
each helper method becomes a Lean function mirroring the source line by
line.  UUID generation and clock reads are passed in as parameters.
-/

namespace AllureSpec

/-- Whitespace test matching the characters Python `str.strip` removes
for the ASCII inputs handled here. -/
def isWS (c : Char) : Bool :=
  (c == ' ') || (c == '\t') || (c == '\n') || (c == '\r') || (c == '\x0b') || (c == '\x0c')

/-- Embedding of Python `str.strip`: drop leading and trailing whitespace. -/
def stripCL (l : List Char) : List Char :=
  ((l.dropWhile isWS).reverse.dropWhile isWS).reverse

/-- Embedding of Python `str.lower` for the ASCII strings used by the helper. -/
def lowerCL (l : List Char) : List Char :=
  l.map Char.toLower

/-- Embedding of Python `needle in hay` substring containment. -/
def containsSub (needle : List Char) : List Char → Bool
  | [] => needle.isEmpty
  | c :: rest => needle.isPrefixOf (c :: rest) || containsSub needle rest

/-- Locate the first occurrence of `sep` in a character list, returning the
text before it and the text after it. -/
def findSplit (sep : List Char) : List Char → Option (List Char × List Char)
  | [] => none
  | c :: rest =>
    if sep.isPrefixOf (c :: rest) then
      some ([], (c :: rest).drop sep.length)
    else
      (findSplit sep rest).map (fun p => (c :: p.1, p.2))

/-- Embedding of Python `str.split(sep, maxsplit)`: split on `sep` at most
`k` times, scanning left to right. -/
def splitMax (sep : List Char) : Nat → List Char → List (List Char)
  | 0, s => [s]
  | k + 1, s =>
    match findSplit sep s with
    | none => [s]
    | some (a, b) => a :: splitMax sep k b

/-- Python `int()` truncation toward zero, on rationals. -/
def pyIntQ (q : ℚ) : ℤ :=
  if 0 ≤ q then ⌊q⌋ else ⌈q⌉

/-- Lowercasing on `String`, as Python `str.lower` for ASCII data. -/
def strLower (s : String) : String :=
  String.mk (lowerCL s.data)

/-- Replace every space by an underscore, as the source does with
`test_name.replace(' ', '_')`. -/
def replaceSpaces (s : String) : String :=
  String.mk (s.data.map (fun c => if c == ' ' then '_' else c))

/-- Allure attachment record (`name`, `type`, `source` in the JSON). -/
structure Attachment where
  name : String
  atype : String
  source : String
  deriving DecidableEq, Repr

/-- Allure label record. -/
structure Label where
  name : String
  value : String
  deriving DecidableEq, Repr

/-- Allure `statusDetails` payload, present only when an error message is
supplied. -/
structure StatusDetails where
  message : String
  trace : String
  deriving DecidableEq, Repr

/-- Allure step record as written by the helper; `substeps` embeds the
nested `steps` list, which the source always leaves empty. -/
inductive Step where
  | mk (name status stage : String) (start stop : ℤ)
      (substeps : List Step) (attachments : List Attachment)

/-- Name of a step. -/
def Step.name : Step → String
  | .mk n _ _ _ _ _ _ => n

/-- Status of a step. -/
def Step.status : Step → String
  | .mk _ s _ _ _ _ _ => s

/-- Stage of a step. -/
def Step.stage : Step → String
  | .mk _ _ st _ _ _ _ => st

/-- Start instant (ms) of a step. -/
def Step.start : Step → ℤ
  | .mk _ _ _ a _ _ _ => a

/-- Stop instant (ms) of a step. -/
def Step.stop : Step → ℤ
  | .mk _ _ _ _ b _ _ => b

/-- Nested steps of a step. -/
def Step.substeps : Step → List Step
  | .mk _ _ _ _ _ ss _ => ss

/-- Attachments of a step. -/
def Step.attachments : Step → List Attachment
  | .mk _ _ _ _ _ _ a => a

instance : Inhabited Step := ⟨.mk "" "" "" 0 0 [] []⟩

/-- Retry entry record synthesized by `generate_test_result` when a
non-zero retry count is supplied. -/
structure RetryEntry where
  uuid : String
  name : String
  status : String
  stage : String
  start : ℤ
  stop : ℤ
  steps : List Step
  attachments : List Attachment

instance : Inhabited RetryEntry := ⟨"", "", "", "", 0, 0, [], []⟩

/-- Test result document as assembled by `generate_test_result`.
`statusDetails = none` models the empty `{}` placeholder, and
`retries = none` models the absence of the `retries` key. -/
structure TestResult where
  uuid : String
  name : String
  status : String
  statusDetails : Option StatusDetails
  stage : String
  start : ℤ
  stop : ℤ
  steps : List Step
  attachments : List Attachment
  parameters : List String
  labels : List Label
  retries : Option (List RetryEntry)

/-- Container document as assembled by `generate_container`. -/
structure Container where
  uuid : String
  name : String
  children : List String
  befores : List String
  afters : List String
  deriving DecidableEq, Repr

/-- Directory entry used to model the results directory for the cleanup
routines: a name, whether `os.path.isfile` holds, and the modification
time in whole seconds (the source compares float seconds; only the
ordering is relevant). -/
structure Entry where
  ename : String
  isFile : Bool
  mtime : ℤ
  deriving DecidableEq, Repr

/-- Token `"INFO"` checked by the line filter. -/
def infoTok : List Char := "INFO".data

/-- Token `"automation_framework"` checked by the line filter. -/
def frameworkTok : List Char := "automation_framework".data

/-- Separator `" - "` used by `line.strip().split(' - ', 3)`. -/
def sepTok : List Char := " - ".data

/-- Keyword disjunction: does the (already lowercased) message contain any
of the given keywords? -/
def anyKeyword (ml : List Char) (kws : List String) : Bool :=
  kws.any (fun k => containsSub k.data ml)

/-- Embedding of `AllureHelper._is_log_for_this_test`: strict per-test
keyword matching over the lowercased message and test name. -/
def isLogForThisTest (message testName : List Char) : Bool :=
  let ml := lowerCL message
  let tl := lowerCL testName
  if containsSub "search project relay".data tl then
    anyKeyword ml ["search project relay", "searching for project", "relay", "welocalize",
      "projects link", "all projects", "search term", "project link"]
  else if containsSub "verify pulled project production status".data tl then
    anyKeyword ml ["verify pulled project production status", "production status", "pulled project",
      "verify production", "production verification", "starting test verify pulled"]
  else if containsSub "create xtm project".data tl then
    anyKeyword ml ["create xtm project", "xtm project creation", "add project", "xtm login",
      "customer dropdown", "source language", "target language", "workflow"]
  else if containsSub "create scheduler job".data tl then
    anyKeyword ml ["create scheduler job", "scheduler job", "developer", "platform", "json",
      "submit", "refresh", "junction", "authenticate", "payload"]
  else if containsSub "project search and segment".data tl then
    anyKeyword ml ["project search and segment", "search project", "segment navigation",
      "manage jobs", "right-click", "lock icon", "click segment"]
  else if containsSub "verify ai task".data tl then
    anyKeyword ml ["verify ai task", "ai task", "ai verification", "task verification"]
  else if containsSub "verify mt copy edit".data tl then
    anyKeyword ml ["verify mt copy edit", "mt copy edit", "mt count", "copy edit", "quote mt"]
  else
    false

/-- Embedding of `test_name.split(" (Attempts:")[0].strip()`. -/
def cleanTestName (t : List Char) : List Char :=
  match findSplit " (Attempts:".data t with
  | none => stripCL t
  | some p => stripCL p.1

/-- Step built from a matched log line: name `"Step k: message"`, status
`"passed"`, and synthetic times counted from the parent start. -/
def mkStep (startMs : ℤ) (counter : Nat) (message : List Char) : Step :=
  .mk ("Step " ++ toString counter ++ ": " ++ String.mk message)
    "passed" "finished"
    (startMs + counter * 1000) (startMs + counter * 1000 + 100) [] []

/-- Embedding of the line loop of `AllureHelper._get_logger_steps`: scan the
log lines carrying the step counter and the `seen_messages` set. -/
def processLines (tc : List Char) (startMs : ℤ) :
    List (List Char) → Nat → List (List Char) → List Step
  | [], _, _ => []
  | line :: rest, counter, seen =>
    if containsSub infoTok line && containsSub frameworkTok line then
      let parts := splitMax sepTok 3 (stripCL line)
      if 4 ≤ parts.length then
        let message := parts.getD 3 []
        if message ∈ seen then
          processLines tc startMs rest counter seen
        else
          if (stripCL message).length < 10 then
            processLines tc startMs rest counter (message :: seen)
          else if isLogForThisTest message tc then
            mkStep startMs (counter + 1) message ::
              processLines tc startMs rest (counter + 1) (message :: seen)
          else
            processLines tc startMs rest counter (message :: seen)
      else
        processLines tc startMs rest counter seen
    else
      processLines tc startMs rest counter seen

/-- Companion to `processLines` that records only the emitted message
texts, with the same branching structure. -/
def processMsgs (tc : List Char) : List (List Char) → List (List Char) → List (List Char)
  | [], _ => []
  | line :: rest, seen =>
    if containsSub infoTok line && containsSub frameworkTok line then
      let parts := splitMax sepTok 3 (stripCL line)
      if 4 ≤ parts.length then
        let message := parts.getD 3 []
        if message ∈ seen then
          processMsgs tc rest seen
        else
          if (stripCL message).length < 10 then
            processMsgs tc rest (message :: seen)
          else if isLogForThisTest message tc then
            message :: processMsgs tc rest (message :: seen)
          else
            processMsgs tc rest (message :: seen)
      else
        processMsgs tc rest seen
    else
      processMsgs tc rest seen

/-- Message texts of the lines that pass the structural part of the filter
(`"INFO"` and `"automation_framework"` present, at least four
` - `-separated fields). -/
def rawMessages (lines : List (List Char)) : List (List Char) :=
  lines.filterMap (fun line =>
    if containsSub infoTok line && containsSub frameworkTok line then
      let parts := splitMax sepTok 3 (stripCL line)
      if 4 ≤ parts.length then some (parts.getD 3 []) else none
    else
      none)

/-- Per-message part of the filter: minimum length and per-test keywords. -/
def stepFilter (tc message : List Char) : Bool :=
  (10 ≤ (stripCL message).length) && isLogForThisTest message tc

/-- First-occurrence deduplication avoiding an initial `seen` set, as the
`seen_messages` set realizes it. -/
def dedupAvoid : List (List Char) → List (List Char) → List (List Char)
  | [], _ => []
  | m :: rest, seen =>
    if m ∈ seen then dedupAvoid rest seen
    else m :: dedupAvoid rest (m :: seen)

/-- Steps built from a message list with consecutive counters starting
just above `c`. -/
def stepsFromMsgs (startMs : ℤ) : Nat → List (List Char) → List Step
  | _, [] => []
  | c, m :: ms => mkStep startMs (c + 1) m :: stepsFromMsgs startMs (c + 1) ms

/-- Embedding of `AllureHelper._get_basic_steps`: the five synthetic
placeholder steps. -/
def getBasicSteps (testName : String) (startMs endMs : ℤ) : List Step :=
  let duration := endMs - startMs
  let stepDuration := max 100 (Int.fdiv duration 5)
  [ .mk ("Step 1: Starting " ++ testName) "passed" "finished"
      startMs (startMs + stepDuration) [] [],
    .mk "Step 2: Initializing test execution" "passed" "finished"
      (startMs + stepDuration) (startMs + stepDuration * 2) [] [],
    .mk ("Step 3: Running " ++ testName) "passed" "finished"
      (startMs + stepDuration * 2) (startMs + stepDuration * 3) [] [],
    .mk "Step 4: Processing test results" "passed" "finished"
      (startMs + stepDuration * 3) (startMs + stepDuration * 4) [] [],
    .mk ("Step 5: Completed " ++ testName) "passed" "finished"
      (startMs + stepDuration * 4) endMs [] [] ]

/-- Embedding of `AllureHelper._get_logger_steps`.  The filesystem is the
lookup `fs`: `fs f = none` means the path does not exist, `fs f = some
lines` gives the decoded lines of the file.  Falls back to the basic
steps when the log file is missing, empty, or yields no matches. -/
def getLoggerSteps (fs : String → Option (List String)) (logFile : Option String)
    (testName : String) (startMs endMs : ℤ) : List Step :=
  match logFile with
  | none => getBasicSteps testName startMs endMs
  | some f =>
    match fs f with
    | none => getBasicSteps testName startMs endMs
    | some logLines =>
      if logLines.isEmpty then
        getBasicSteps testName startMs endMs
      else
        let tc := cleanTestName testName.data
        let steps := processLines tc startMs (logLines.map String.data) 0 []
        if steps.isEmpty then getBasicSteps testName startMs endMs else steps

/-- Severity field of a log line: third ` - `-separated field, as the
format `<timestamp> - <logger_name> - <LEVEL> - <message>` lays it out. -/
def severityOf (line : String) : List Char :=
  (splitMax sepTok 3 (stripCL line.data)).getD 2 []

/-- Embedding of `AllureHelper._detect_test_class`. -/
def detectTestClass (testName : String) : String :=
  let tl := lowerCL testName.data
  if containsSub "apollo".data tl then "TestApollo"
  else if containsSub "ui".data tl || containsSub "browser".data tl then "UITest"
  else if containsSub "api".data tl then "APITest"
  else "TestSuite"

/-- Embedding of `AllureHelper._detect_package`. -/
def detectPackage (testName : String) : String :=
  let tl := lowerCL testName.data
  if containsSub "apollo".data tl then "tests.api.test_apollo"
  else if containsSub "ui".data tl || containsSub "browser".data tl then "tests.ui"
  else if containsSub "api".data tl then "tests.api"
  else "tests"

/-- Embedding of `AllureHelper._detect_suite_name`. -/
def detectSuiteName (testName : String) : String :=
  let tl := lowerCL testName.data
  if containsSub "apollo".data tl then "Apollo API Tests"
  else if containsSub "ui".data tl || containsSub "browser".data tl then "UI Tests"
  else if containsSub "api".data tl then "API Tests"
  else "Test Suite"

/-- Embedding of `AllureHelper._create_log_attachment`: when the log file
exists it is copied into the results directory under `attName` and
registered as a text attachment. -/
def createLogAttachment (fs : String → Option (List String)) (logFile : Option String)
    (attName : String) : Option Attachment :=
  match logFile with
  | none => none
  | some f =>
    match fs f with
    | none => none
    | some _ => some ⟨"Test Log", "text/plain", attName⟩

/-- Retry entries synthesized by `generate_test_result` for a positive
retry count: all attempts but the last are `"failed"`, the last carries
the final lowercased status, and attempt `i` (0-based) occupies the
one-second slice starting at `startMs + i * 1000`. -/
def mkRetryEntries (retryUuid : Nat → String) (testName statusLower : String)
    (startMs : ℤ) (n : Nat) : List RetryEntry :=
  (List.range n).map (fun i =>
    { uuid := retryUuid i
      name := testName ++ " (Attempt " ++ toString (i + 1) ++ ")"
      status := if i < n - 1 then "failed" else statusLower
      stage := "finished"
      start := startMs + (i : ℤ) * 1000
      stop := startMs + ((i : ℤ) + 1) * 1000
      steps := [ .mk ("Retry Attempt " ++ toString (i + 1))
          (if i < n - 1 then "failed" else statusLower) "finished"
          (startMs + (i : ℤ) * 1000) (startMs + ((i : ℤ) + 1) * 1000) [] [] ]
      attachments := [] })

/-- Embedding of `AllureHelper.generate_test_result`.  Nondeterministic
inputs of the source are passed explicitly: `testUuid` and `retryUuid`
stand for the `uuid.uuid4()` draws, `now1`/`now2` for the two `time.time()`
reads used when `start_time`/`end_time` are omitted, and `fs` for the
filesystem.  The function returns the assembled result document together
with the list of result-document writes it performs (filename paired with
content); the source performs exactly one `json.dump`. -/
def generate_test_result (testUuid : String) (retryUuid : Nat → String)
    (now1 now2 : ℚ) (fs : String → Option (List String))
    (test_name status : String) (start_time end_time : Option ℚ)
    (error_message : Option String) (attachments : List Attachment)
    (test_class pkg suite : Option String)
    (log_file : Option String) (retry_count : Nat) :
    TestResult × List (String × TestResult) :=
  let startT := start_time.getD now1
  let endT := end_time.getD now2
  let startMs := pyIntQ (startT * 1000)
  let endMs := pyIntQ (endT * 1000)
  let tClass := match test_class with
    | none => detectTestClass test_name
    | some c => if c.isEmpty then detectTestClass test_name else c
  let tPkg := match pkg with
    | none => detectPackage test_name
    | some c => if c.isEmpty then detectPackage test_name else c
  let tSuite := match suite with
    | none => detectSuiteName test_name
    | some c => if c.isEmpty then detectSuiteName test_name else c
  let steps := getLoggerSteps fs log_file test_name startMs endMs
  let logAtt := match log_file with
    | none => none
    | some f =>
      if (fs f).isSome then
        createLogAttachment fs log_file (replaceSpaces test_name ++ "_log.txt")
      else none
  let allAttachments := attachments ++ logAtt.toList
  let details := match error_message with
    | none => none
    | some m => if m.isEmpty then none else some (⟨m, m⟩ : StatusDetails)
  let result : TestResult :=
    { uuid := testUuid
      name := test_name
      status := strLower status
      statusDetails := details
      stage := "finished"
      start := startMs
      stop := endMs
      steps := steps
      attachments := allAttachments
      parameters := []
      labels := [⟨"testClass", tClass⟩, ⟨"testMethod", test_name⟩,
        ⟨"package", tPkg⟩, ⟨"suite", tSuite⟩]
      retries := if 0 < retry_count then
          some (mkRetryEntries retryUuid test_name (strLower status) startMs retry_count)
        else none }
  (result, [(testUuid ++ "-result.json", result)])

/-- Embedding of `AllureHelper.generate_container`: builds the container
document, writes it once, and returns the generated container identifier.
The `uuid.uuid4()` draw is the explicit `containerUuid` parameter. -/
def generate_container (containerUuid testUuid testName : String) :
    String × Container × List (String × Container) :=
  let c : Container :=
    { uuid := containerUuid
      name := testName
      children := [testUuid]
      befores := []
      afters := [] }
  (containerUuid, c, [(containerUuid ++ "-container.json", c)])

/-- Embedding of `AllureHelper.clean_results` on the results-directory
state: `none` models a missing directory, `some files` an existing one.
`shutil.rmtree` removes an existing directory, then `os.makedirs` with
`exist_ok=True` recreates it. -/
def clean_results (dir : Option (List Entry)) : Option (List Entry) :=
  let afterRm : Option (List Entry) := match dir with
    | some _ => none
    | none => dir
  match afterRm with
  | none => some []
  | some files => some files

/-- Embedding of `AllureHelper.clean_old_results`: on a missing directory
return immediately; otherwise remove exactly those regular files whose
modification time is strictly below `now - older_than_minutes * 60`. -/
def clean_old_results (dir : Option (List Entry)) (now : ℤ)
    (older_than_minutes : Nat) : Option (List Entry) :=
  match dir with
  | none => none
  | some files =>
    let cutoff := now - (older_than_minutes : ℤ) * 60
    some (files.filter (fun e => !(e.isFile && decide (e.mtime < cutoff))))

/-- Modelled from the spec: the repository contains no timestamp parser
(the spec describes one for the log format `YYYY-MM-DD HH:MM:SS,mmm`);
this checker recognizes exactly character lists in that fixed shape. -/
def tsFormatOK (l : List Char) : Bool :=
  match l with
  | [y1, y2, y3, y4, d1, m1, m2, d2, a1, a2, sp, h1, h2, c1, i1, i2, c2, s1, s2, cm, x1, x2, x3] =>
    y1.isDigit && y2.isDigit && y3.isDigit && y4.isDigit && (d1 == '-') &&
    m1.isDigit && m2.isDigit && (d2 == '-') && a1.isDigit && a2.isDigit &&
    (sp == ' ') && h1.isDigit && h2.isDigit && (c1 == ':') && i1.isDigit &&
    i2.isDigit && (c2 == ':') && s1.isDigit && s2.isDigit && (cm == ',') &&
    x1.isDigit && x2.isDigit && x3.isDigit
  | _ => false

/-! Concrete fixtures used by witnesses and counterexamples. -/

/-- Log line from the spec example for the Search Project Relay test. -/
def logLineRelay : String :=
  "2025-01-03 16:21:53,123 - automation_framework - INFO - Searching for project: XTM Test Automation team 20251010_185850"

/-- Message field of `logLineRelay`. -/
def msgRelay : String :=
  "Searching for project: XTM Test Automation team 20251010_185850"

/-- Test name from the spec example. -/
def nameRelay : String := "Search Project Relay (UI)"

/-- Filesystem exposing a log consisting of `logLineRelay` only. -/
def fsRelay : String → Option (List String) :=
  fun f => if f = "app.log" then some [logLineRelay] else none

/-- Log line whose severity field is `ERROR` but whose message contains the
substring `INFO` and relay keywords. -/
def logLineError : String :=
  "2025-01-03 16:21:53,123 - automation_framework - ERROR - INFO relay searching for project step failed"

/-- Filesystem exposing a log consisting of `logLineError` only. -/
def fsError : String → Option (List String) :=
  fun f => if f = "app.log" then some [logLineError] else none

/-- Same line as `logLineRelay` with a different, equally well-formed
leading timestamp. -/
def logLineRelayB : String :=
  "2024-06-07 01:02:03,004 - automation_framework - INFO - Searching for project: XTM Test Automation team 20251010_185850"

/-- Filesystem exposing a log consisting of `logLineRelayB` only. -/
def fsRelayB : String → Option (List String) :=
  fun f => if f = "app.log" then some [logLineRelayB] else none

/-- Log line without the substring `INFO` anywhere. -/
def noInfoLine : String :=
  "2025-01-03 16:21:53,123 - automation_framework - DEBUG - searching for project relay details here"

/-- Filesystem with no files at all. -/
def fsEmpty : String → Option (List String) := fun _ => none

/-- Retry-uuid source used in concrete instantiations. -/
def ruW : Nat → String := fun i => "retry-" ++ toString i

/-- Fresh directory entry (modified 100 s before the concrete call). -/
def entryFresh : Entry := ⟨"fresh-result.json", true, 900⟩

/-- Stale directory entry (modified 1000 s before the concrete call). -/
def entryOld : Entry := ⟨"old-result.json", true, 0⟩

/-! Helper lemmas shared by the claim theorems. -/

/-- Truncation toward zero is monotone. -/
theorem pyIntQ_mono {a b : ℚ} (h : a ≤ b) : pyIntQ a ≤ pyIntQ b := by
  unfold pyIntQ
  by_cases ha : 0 ≤ a
  · have hb : 0 ≤ b := le_trans ha h
    simp only [ha, hb, if_pos]
    exact Int.floor_mono h
  · by_cases hb : 0 ≤ b
    · simp only [ha, hb, if_pos, if_neg, not_false_iff]
      calc ⌈a⌉ ≤ ⌈(0 : ℚ)⌉ := Int.ceil_mono (le_of_not_le ha)
        _ = 0 := by simp
        _ ≤ ⌊b⌋ := Int.le_floor.mpr (by exact_mod_cast hb)
    · simp only [ha, hb, if_neg, not_false_iff]
      exact Int.ceil_mono h

/-- Companion steps builder produces one step per message. -/
theorem stepsFromMsgs_length (s : ℤ) : ∀ (c : Nat) (ms : List (List Char)),
    (stepsFromMsgs s c ms).length = ms.length
  | _, [] => rfl
  | c, _ :: ms => by
    simp only [stepsFromMsgs, List.length_cons, stepsFromMsgs_length s (c + 1) ms]

/-- Every step built by the companion builder is `"passed"`. -/
theorem stepsFromMsgs_status (s : ℤ) : ∀ (c : Nat) (ms : List (List Char)),
    (stepsFromMsgs s c ms).map Step.status = List.replicate ms.length "passed"
  | _, [] => rfl
  | c, m :: ms => by
    simp only [stepsFromMsgs, List.map_cons, List.length_cons, List.replicate_succ,
      stepsFromMsgs_status s (c + 1) ms, mkStep, Step.status]

/-- Times of the steps built by the companion builder: attempt `i`
(0-based, counting from counter value `c`) runs from
`s + (c+i+1)*1000` for 100 ms. -/
theorem stepsFromMsgs_times (s : ℤ) : ∀ (c : Nat) (ms : List (List Char)),
    (stepsFromMsgs s c ms).map (fun st => (st.start, st.stop))
      = (List.range ms.length).map
          (fun i : Nat => (s + ((c : ℤ) + (i : ℤ) + 1) * 1000, s + ((c : ℤ) + (i : ℤ) + 1) * 1000 + 100))
  | _, [] => rfl
  | c, m :: ms => by
    have ih := stepsFromMsgs_times s (c + 1) ms
    simp only [stepsFromMsgs, List.map_cons, List.length_cons, List.range_succ_eq_map,
      List.map_map, mkStep, Step.start, Step.stop, List.cons.injEq]
    refine ⟨?_, ?_⟩
    · simp only [Prod.mk.injEq]
      push_cast
      constructor <;> ring
    · simp only [Step.start, Step.stop] at ih
      rw [ih]
      apply List.map_congr_left
      intro i _
      simp only [Function.comp_apply, Prod.mk.injEq]
      push_cast
      constructor <;> ring

/-- The line loop emits exactly the steps built from its emitted message
list with consecutive counters. -/
theorem processLines_eq_stepsFromMsgs (tc : List Char) (s : ℤ) :
    ∀ (lines : List (List Char)) (c : Nat) (seen : List (List Char)),
    processLines tc s lines c seen = stepsFromMsgs s c (processMsgs tc lines seen)
  | [], _, _ => rfl
  | line :: rest, c, seen => by
    simp only [processLines, processMsgs]
    split
    · split
      · split
        · exact processLines_eq_stepsFromMsgs tc s rest c seen
        · split
          · exact processLines_eq_stepsFromMsgs tc s rest c _
          · split
            · simp only [stepsFromMsgs, processLines_eq_stepsFromMsgs tc s rest (c + 1) _]
            · exact processLines_eq_stepsFromMsgs tc s rest c _
      · exact processLines_eq_stepsFromMsgs tc s rest c seen
    · exact processLines_eq_stepsFromMsgs tc s rest c seen

/-- The emitted messages are exactly the structurally eligible messages,
deduplicated keeping first occurrences (relative to the running `seen`
set) and filtered by the per-message checks. -/
theorem processMsgs_eq_dedup (tc : List Char) :
    ∀ (lines : List (List Char)) (seen : List (List Char)),
    processMsgs tc lines seen
      = (dedupAvoid (rawMessages lines) seen).filter (fun m => stepFilter tc m)
  | [], _ => rfl
  | line :: rest, seen => by
    simp only [processMsgs, rawMessages, List.filterMap_cons]
    by_cases h1 : (containsSub infoTok line && containsSub frameworkTok line) = true
    · simp only [h1, if_true, if_pos]
      by_cases h2 : 4 ≤ (splitMax sepTok 3 (stripCL line)).length
      · simp only [h2, if_true, if_pos, dedupAvoid]
        by_cases h3 : (splitMax sepTok 3 (stripCL line)).getD 3 [] ∈ seen
        · simp only [h3, if_true, if_pos]
          exact processMsgs_eq_dedup tc rest seen
        · simp only [h3, if_false, if_neg, not_false_iff]
          by_cases h4 : (stripCL ((splitMax sepTok 3 (stripCL line)).getD 3 [])).length < 10
          · have hf : stepFilter tc ((splitMax sepTok 3 (stripCL line)).getD 3 []) = false := by
              simp only [stepFilter, Bool.and_eq_false_iff]
              left
              simpa using h4
            simp only [h4, if_true, if_pos, List.filter_cons, hf, Bool.false_eq_true, if_false,
              if_neg, not_false_iff]
            exact processMsgs_eq_dedup tc rest _
          · by_cases h5 : isLogForThisTest ((splitMax sepTok 3 (stripCL line)).getD 3 []) tc = true
            · have hf : stepFilter tc ((splitMax sepTok 3 (stripCL line)).getD 3 []) = true := by
                simp only [stepFilter, Bool.and_eq_true]
                exact ⟨by simpa using Nat.le_of_not_lt (by simpa using h4), h5⟩
              simp only [h4, if_false, if_neg, not_false_iff, h5, if_true, if_pos,
                List.filter_cons, hf]
              simp only [processMsgs_eq_dedup tc rest _]
              rfl
            · have hf : stepFilter tc ((splitMax sepTok 3 (stripCL line)).getD 3 []) = false := by
                simp only [stepFilter, Bool.and_eq_false_iff]
                right
                simpa using h5
              simp only [h4, if_false, if_neg, not_false_iff, h5, List.filter_cons, hf,
                Bool.false_eq_true]
              exact processMsgs_eq_dedup tc rest _
      · simp only [h2, if_false, if_neg, not_false_iff]
        exact processMsgs_eq_dedup tc rest seen
    · simp only [h1, if_false, if_neg, not_false_iff, Bool.not_eq_true]
      exact processMsgs_eq_dedup tc rest seen

/-- First-occurrence deduplication produces a duplicate-free list disjoint
from the initial `seen` set. -/
theorem dedupAvoid_nodup_and_disjoint :
    ∀ (l seen : List (List Char)),
    (dedupAvoid l seen).Nodup ∧ ∀ m ∈ dedupAvoid l seen, m ∉ seen
  | [], _ => ⟨List.nodup_nil, by simp [dedupAvoid]⟩
  | m :: rest, seen => by
    simp only [dedupAvoid]
    by_cases h : m ∈ seen
    · simp only [h, if_true, if_pos]
      exact dedupAvoid_nodup_and_disjoint rest seen
    · simp only [h, if_false, if_neg, not_false_iff]
      have ih := dedupAvoid_nodup_and_disjoint rest (m :: seen)
      refine ⟨List.Nodup.cons ?_ ih.1, ?_⟩
      · intro hmem
        exact ih.2 m hmem (List.mem_cons_self m seen)
      · intro x hx hxseen
        rcases List.mem_cons.mp hx with rfl | hx'
        · exact h hxseen
        · exact ih.2 x hx' (List.mem_cons_of_mem m hxseen)

/-- All statuses emitted by the line loop are `"passed"`. -/
theorem processLines_status_all (tc : List Char) (s : ℤ) (lines : List (List Char))
    (c : Nat) (seen : List (List Char)) :
    (processLines tc s lines c seen).map Step.status
      = List.replicate (processLines tc s lines c seen).length "passed" := by
  rw [processLines_eq_stepsFromMsgs, stepsFromMsgs_status, stepsFromMsgs_length]

/-- Lines lacking the substring `INFO` produce no steps at all. -/
theorem processLines_no_info (tc : List Char) (s : ℤ) :
    ∀ (lines : List (List Char)), (∀ l ∈ lines, containsSub infoTok l = false) →
    ∀ (c : Nat) (seen : List (List Char)), processLines tc s lines c seen = []
  | [], _, _, _ => rfl
  | line :: rest, h, c, seen => by
    have hl : containsSub infoTok line = false := h line (List.mem_cons_self line rest)
    simp only [processLines, hl, Bool.false_and, Bool.false_eq_true, if_false, if_neg,
      not_false_iff]
    exact processLines_no_info tc s rest (fun l hl' => h l (List.mem_cons_of_mem line hl')) c seen

/-- C6: for a log file containing the spec example line and test name
"Search Project Relay (UI)", the filter classifies the line as a match
and produces exactly one step whose name contains the message and whose
status is "passed". -/
theorem claim6_relay_match :
    isLogForThisTest msgRelay.data (cleanTestName nameRelay.data) = true
    ∧ (getLoggerSteps fsRelay (some "app.log") nameRelay 0 10000).length = 1
    ∧ (getLoggerSteps fsRelay (some "app.log") nameRelay 0 10000).map Step.status = ["passed"]
    ∧ containsSub msgRelay.data
        (((getLoggerSteps fsRelay (some "app.log") nameRelay 0 10000).getD 0 default).name.data)
      = true := by
  exact ⟨by decide, by decide, by decide, by decide⟩

/-- C7: within one filtering pass the emitted steps are exactly the steps
built, with consecutive counters, from the structurally eligible messages
deduplicated keeping first occurrences and filtered by the per-message
checks; in particular the emitted message list is duplicate-free, so at
most one step is produced per message text. -/
theorem claim7_dedup_first (tc : List Char) (s : ℤ) (lines : List (List Char)) :
    processLines tc s lines 0 [] = stepsFromMsgs s 0 (processMsgs tc lines [])
    ∧ processMsgs tc lines []
        = (dedupAvoid (rawMessages lines) []).filter (fun m => stepFilter tc m)
    ∧ (processMsgs tc lines []).Nodup := by
  refine ⟨processLines_eq_stepsFromMsgs tc s lines 0 [],
    processMsgs_eq_dedup tc lines [], ?_⟩
  rw [processMsgs_eq_dedup tc lines []]
  exact List.Nodup.filter _ (dedupAvoid_nodup_and_disjoint (rawMessages lines) []).1

/-- C8: `clean_results` leaves the results directory existing and empty
from any starting state, and a second call gives the same post-state. -/
theorem claim8_clean_idempotent (st : Option (List Entry)) :
    clean_results st = some []
    ∧ clean_results (clean_results st) = clean_results st := by
  cases st <;> simp [clean_results]

/-- C10: `generate_container` produces a container whose children are
exactly the given test uuid, whose name is the test name, whose befores
and afters are empty, and writes exactly one file whose name prefix is
the returned identifier, equal to the document uuid. -/
theorem claim10_container (cu tu tn : String) :
    (generate_container cu tu tn).2.1.children = [tu]
    ∧ (generate_container cu tu tn).2.1.name = tn
    ∧ (generate_container cu tu tn).2.1.befores = []
    ∧ (generate_container cu tu tn).2.1.afters = []
    ∧ (generate_container cu tu tn).1 = (generate_container cu tu tn).2.1.uuid
    ∧ (generate_container cu tu tn).2.2
        = [((generate_container cu tu tn).1 ++ "-container.json", (generate_container cu tu tn).2.1)]
    ∧ ((generate_container cu tu tn).2.2).length = 1 := by
  exact ⟨rfl, rfl, rfl, rfl, rfl, rfl, rfl⟩

/-- C2 (counterexample): `logLineError` carries the severity token
`ERROR`, yet the filter emits for it a step with status `"passed"`, not
`"failed"`: the source only checks for the substring `INFO` anywhere in
the line and hardcodes every step status to `"passed"`. -/
theorem claim2_counterexample :
    severityOf logLineError = "ERROR".data
    ∧ (getLoggerSteps fsError (some "app.log") nameRelay 0 10000).map Step.status = ["passed"]
    ∧ (getLoggerSteps fsError (some "app.log") nameRelay 0 10000).map Step.status ≠ ["failed"] := by
  exact ⟨by decide, by decide, by decide⟩

/-- C2 (amended): the filter accepts only lines containing the substring
`INFO` somewhere, and every step it emits has status `"passed"`; the
severity token is never consulted for the status. -/
theorem claim2_status_passed (tc : List Char) (s : ℤ) (lines : List (List Char))
    (c : Nat) (seen : List (List Char)) :
    (processLines tc s lines c seen).map Step.status
      = List.replicate (processLines tc s lines c seen).length "passed"
    ∧ ((∀ l ∈ lines, containsSub infoTok l = false) → processLines tc s lines c seen = []) := by
  exact ⟨processLines_status_all tc s lines c seen,
    fun h => processLines_no_info tc s lines h c seen⟩

/-- Witness for the amended C2 at concrete inputs. -/
theorem claim2_status_passed_witness :
    (processLines (cleanTestName nameRelay.data) 0 [logLineRelay.data] 0 []).map Step.status
      = List.replicate 1 "passed"
    ∧ ((∀ l ∈ [noInfoLine.data], containsSub infoTok l = false)
        ∧ processLines (cleanTestName nameRelay.data) 0 [noInfoLine.data] 0 [] = []) := by
  refine ⟨?_, by decide, ?_⟩
  · exact (claim2_status_passed (cleanTestName nameRelay.data) 0 [logLineRelay.data] 0 []).1
  · exact (claim2_status_passed (cleanTestName nameRelay.data) 0 [noInfoLine.data] 0 []).2
      (by decide)

/-- C3 (counterexample): two logs identical except for their well-formed
leading timestamps yield identical step times, both equal to the
synthetic `start + 1000 / start + 1100` slice: step times are not derived
from the parsed log timestamp. -/
theorem claim3_counterexample :
    tsFormatOK "2025-01-03 16:21:53,123".data = true
    ∧ tsFormatOK "2024-06-07 01:02:03,004".data = true
    ∧ logLineRelay ≠ logLineRelayB
    ∧ (getLoggerSteps fsRelay (some "app.log") nameRelay 0 10000).map
        (fun st => (st.start, st.stop)) = [(1000, 1100)]
    ∧ (getLoggerSteps fsRelayB (some "app.log") nameRelay 0 10000).map
        (fun st => (st.start, st.stop)) = [(1000, 1100)] := by
  exact ⟨by decide, by decide, by decide, by decide, by decide⟩

/-- C3 (amended): step times are always synthesized by incrementing a
counter from the parent start time — the `k`-th emitted step (0-based)
runs from `start + (k+1)*1000` for 100 ms — regardless of the line's
timestamp, which is never parsed. -/
theorem claim3_synthetic_times (tc : List Char) (s : ℤ) (lines : List (List Char)) :
    (processLines tc s lines 0 []).map (fun st => (st.start, st.stop))
      = (List.range (processLines tc s lines 0 []).length).map
          (fun i : Nat => (s + ((i : ℤ) + 1) * 1000, s + ((i : ℤ) + 1) * 1000 + 100)) := by
  rw [processLines_eq_stepsFromMsgs, stepsFromMsgs_length, stepsFromMsgs_times]
  apply List.map_congr_left
  intro i _
  simp only [Prod.mk.injEq]
  push_cast
  constructor <;> ring

/-- C1 (counterexample): with no log file the written result document has
five placeholder steps, not three. -/
theorem claim1_counterexample :
    ((generate_test_result "u" ruW 0 1 fsEmpty "Relay Test" "passed" (some 0) (some 10)
        none [] none none none none 0).1.steps).length = 5
    ∧ ((generate_test_result "u" ruW 0 1 fsEmpty "Relay Test" "passed" (some 0) (some 10)
        none [] none none none none 0).1.steps).length ≠ 3 := by
  exact ⟨by decide, by decide⟩

/-- C1 (amended): when `log_file` is `None` or names a missing file, the
result document's steps are exactly the five placeholder steps
"Starting", "Initializing test execution", "Running", "Processing test
results", "Completed". -/
theorem claim1_basic_steps (testUuid : String) (ru : Nat → String) (now1 now2 : ℚ)
    (fs : String → Option (List String)) (test_name status : String)
    (sT eT : Option ℚ) (em : Option String) (atts : List Attachment)
    (tcl pk su : Option String) (log_file : Option String) (n : Nat)
    (h : log_file.bind fs = none) :
    (generate_test_result testUuid ru now1 now2 fs test_name status sT eT em atts tcl pk su
        log_file n).1.steps
      = getBasicSteps test_name (pyIntQ (sT.getD now1 * 1000)) (pyIntQ (eT.getD now2 * 1000))
    ∧ (getBasicSteps test_name (pyIntQ (sT.getD now1 * 1000))
        (pyIntQ (eT.getD now2 * 1000))).length = 5
    ∧ (getBasicSteps test_name (pyIntQ (sT.getD now1 * 1000))
        (pyIntQ (eT.getD now2 * 1000))).map Step.name
      = ["Step 1: Starting " ++ test_name, "Step 2: Initializing test execution",
         "Step 3: Running " ++ test_name, "Step 4: Processing test results",
         "Step 5: Completed " ++ test_name] := by
  refine ⟨?_, rfl, rfl⟩
  cases hlf : log_file with
  | none => simp [generate_test_result, getLoggerSteps]
  | some f =>
    have hfs : fs f = none := by simpa [hlf] using h
    simp [generate_test_result, getLoggerSteps, hfs]

/-- Witness for the amended C1 at concrete inputs. -/
theorem claim1_basic_steps_witness :
    Option.bind (none : Option String) fsEmpty = none
    ∧ ((generate_test_result "u" ruW 0 1 fsEmpty "Relay Test" "passed" (some 0) (some 10)
          none [] none none none none 0).1.steps
        = getBasicSteps "Relay Test" (pyIntQ (Option.getD (some 0) 0 * 1000))
            (pyIntQ (Option.getD (some 10) 1 * 1000))
      ∧ (getBasicSteps "Relay Test" (pyIntQ (Option.getD (some 0) 0 * 1000))
          (pyIntQ (Option.getD (some 10) 1 * 1000))).length = 5
      ∧ (getBasicSteps "Relay Test" (pyIntQ (Option.getD (some 0) 0 * 1000))
          (pyIntQ (Option.getD (some 10) 1 * 1000))).map Step.name
        = ["Step 1: Starting " ++ "Relay Test", "Step 2: Initializing test execution",
           "Step 3: Running " ++ "Relay Test", "Step 4: Processing test results",
           "Step 5: Completed " ++ "Relay Test"]) := by
  exact ⟨rfl, claim1_basic_steps "u" ruW 0 1 fsEmpty "Relay Test" "passed" (some 0) (some 10)
    none [] none none none none 0 rfl⟩

/-- C9: `clean_old_results` keeps every entry whose modification time is
within `T` minutes of the call, removes only regular files older than
that, and never touches non-file entries. -/
theorem claim9_clean_old_safe (files : List Entry) (now : ℤ) (T : Nat) :
    (∀ x ∈ files, now - x.mtime ≤ (T : ℤ) * 60 →
        x ∈ (clean_old_results (some files) now T).getD [])
    ∧ (∀ x ∈ files, x ∉ (clean_old_results (some files) now T).getD [] →
        x.isFile = true ∧ x.mtime < now - (T : ℤ) * 60)
    ∧ (∀ x ∈ files, x.isFile = false →
        x ∈ (clean_old_results (some files) now T).getD []) := by
  simp only [clean_old_results, Option.getD_some]
  refine ⟨?_, ?_, ?_⟩
  · intro x hx hle
    refine List.mem_filter.mpr ⟨hx, ?_⟩
    have hge : ¬ (x.mtime < now - (T : ℤ) * 60) := by omega
    simp [hge]
  · intro x hx hnot
    cases hb : (!(x.isFile && decide (x.mtime < now - (T : ℤ) * 60))) with
    | true => exact absurd (List.mem_filter.mpr ⟨hx, hb⟩) hnot
    | false => simpa using hb
  · intro x hx hfile
    exact List.mem_filter.mpr ⟨hx, by simp [hfile]⟩

/-- Witness for C9 at a concrete directory: the fresh file survives, the
stale file is removed and was indeed an old regular file. -/
theorem claim9_clean_old_safe_witness :
    (entryFresh ∈ [entryFresh, entryOld]
      ∧ (1000 : ℤ) - entryFresh.mtime ≤ ((5 : Nat) : ℤ) * 60
      ∧ entryFresh ∈ (clean_old_results (some [entryFresh, entryOld]) 1000 5).getD [])
    ∧ (entryOld ∈ [entryFresh, entryOld]
      ∧ entryOld ∉ (clean_old_results (some [entryFresh, entryOld]) 1000 5).getD []
      ∧ entryOld.isFile = true ∧ entryOld.mtime < 1000 - ((5 : Nat) : ℤ) * 60) := by
  have h := claim9_clean_old_safe [entryFresh, entryOld] 1000 5
  refine ⟨⟨by decide, by decide, h.1 entryFresh (by decide) (by decide)⟩,
    ⟨by decide, by decide, ?_, ?_⟩⟩
  · exact (h.2.1 entryOld (by decide) (by decide)).1
  · exact (h.2.1 entryOld (by decide) (by decide)).2

/-- C4: with a positive retry count `n`, the document's retries array has
exactly `n` entries; all but the last have status `"failed"`, the last
carries the lowercased final status, and the `i`-th entry (0-based)
occupies the synthetic one-second slice from `start + i*1000` to
`start + (i+1)*1000`. -/
theorem claim4_retries (ru : Nat → String) (test_name statusLower : String)
    (startMs : ℤ) (n : Nat) (h : 0 < n)
    (testUuid : String) (now1 now2 : ℚ) (fs : String → Option (List String))
    (status : String) (s e : ℚ) (em : Option String) (atts : List Attachment)
    (tcl pk su : Option String) (lf : Option String) :
    (mkRetryEntries ru test_name statusLower startMs n).length = n
    ∧ (∀ i : Nat, i + 1 < n →
        ((mkRetryEntries ru test_name statusLower startMs n).getD i default).status = "failed")
    ∧ ((mkRetryEntries ru test_name statusLower startMs n).getD (n - 1) default).status
        = statusLower
    ∧ (∀ i : Nat, i < n →
        ((mkRetryEntries ru test_name statusLower startMs n).getD i default).start
            = startMs + (i : ℤ) * 1000
        ∧ ((mkRetryEntries ru test_name statusLower startMs n).getD i default).stop
            = startMs + ((i : ℤ) + 1) * 1000)
    ∧ (generate_test_result testUuid ru now1 now2 fs test_name status (some s) (some e)
          em atts tcl pk su lf n).1.retries
        = some (mkRetryEntries ru test_name (strLower status) (pyIntQ (s * 1000)) n) := by
  have hlen : (mkRetryEntries ru test_name statusLower startMs n).length = n := by
    simp [mkRetryEntries]
  have hget : ∀ i : Nat, i < n →
      (mkRetryEntries ru test_name statusLower startMs n).getD i default
        = { uuid := ru i
            name := test_name ++ " (Attempt " ++ toString (i + 1) ++ ")"
            status := if i < n - 1 then "failed" else statusLower
            stage := "finished"
            start := startMs + (i : ℤ) * 1000
            stop := startMs + ((i : ℤ) + 1) * 1000
            steps := [ .mk ("Retry Attempt " ++ toString (i + 1))
                (if i < n - 1 then "failed" else statusLower) "finished"
                (startMs + (i : ℤ) * 1000) (startMs + ((i : ℤ) + 1) * 1000) [] [] ]
            attachments := [] } := by
    intro i hi
    rw [List.getD_eq_getElem?_getD, List.getElem?_eq_getElem (by rw [hlen]; exact hi)]
    simp [mkRetryEntries]
  refine ⟨hlen, ?_, ?_, ?_, ?_⟩
  · intro i hi
    rw [hget i (by omega)]
    show (if i < n - 1 then "failed" else statusLower) = "failed"
    rw [if_pos (by omega : i < n - 1)]
  · rw [hget (n - 1) (by omega)]
    show (if n - 1 < n - 1 then "failed" else statusLower) = statusLower
    rw [if_neg (by omega : ¬ (n - 1 < n - 1))]
  · intro i hi
    rw [hget i hi]
    exact ⟨rfl, rfl⟩
  · simp [generate_test_result, h]

/-- Witness for C4 with retry count 2 and final status "PASSED": the
first attempt is marked failed, the second passed. -/
theorem claim4_retries_witness :
    0 < 2
    ∧ (mkRetryEntries ruW "Relay Test" (strLower "PASSED") 0 2).length = 2
    ∧ ((mkRetryEntries ruW "Relay Test" (strLower "PASSED") 0 2).getD 0 default).status
        = "failed"
    ∧ ((mkRetryEntries ruW "Relay Test" (strLower "PASSED") 0 2).getD 1 default).status
        = strLower "PASSED"
    ∧ ((mkRetryEntries ruW "Relay Test" (strLower "PASSED") 0 2).getD 0 default).start = 0
    ∧ ((mkRetryEntries ruW "Relay Test" (strLower "PASSED") 0 2).getD 0 default).stop = 1000
    ∧ ((mkRetryEntries ruW "Relay Test" (strLower "PASSED") 0 2).getD 1 default).start = 1000
    ∧ ((mkRetryEntries ruW "Relay Test" (strLower "PASSED") 0 2).getD 1 default).stop = 2000
    ∧ (generate_test_result "u" ruW 0 1 fsEmpty "Relay Test" "PASSED" (some 0) (some 10)
          none [] none none none none 2).1.retries
        = some (mkRetryEntries ruW "Relay Test" (strLower "PASSED") (pyIntQ (0 * 1000)) 2) := by
  have h := claim4_retries ruW "Relay Test" (strLower "PASSED") 0 2 (by decide)
    "u" 0 1 fsEmpty "PASSED" 0 10 none [] none none none none
  exact ⟨by decide, h.1, h.2.1 0 (by decide), h.2.2.1,
    (h.2.2.2.1 0 (by decide)).1, (h.2.2.2.1 0 (by decide)).2,
    (h.2.2.2.1 1 (by decide)).1, (h.2.2.2.1 1 (by decide)).2,
    h.2.2.2.2⟩

/-- C5: for every valid call — the effective start instant not after the
effective stop instant, which covers explicit windows as well as the
defaulted "now" reads — `generate_test_result` performs exactly one
result-document write, and the document satisfies `start ≤ stop`. -/
theorem claim5_one_write_start_le_stop (testUuid : String) (ru : Nat → String)
    (now1 now2 : ℚ) (fs : String → Option (List String)) (test_name status : String)
    (sT eT : Option ℚ) (em : Option String) (atts : List Attachment)
    (tcl pk su : Option String) (lf : Option String) (n : Nat)
    (h : sT.getD now1 ≤ eT.getD now2) :
    ((generate_test_result testUuid ru now1 now2 fs test_name status sT eT em atts tcl pk su
        lf n).2).length = 1
    ∧ (generate_test_result testUuid ru now1 now2 fs test_name status sT eT em atts tcl pk su
        lf n).1.start
      ≤ (generate_test_result testUuid ru now1 now2 fs test_name status sT eT em atts tcl pk su
        lf n).1.stop := by
  refine ⟨rfl, ?_⟩
  have h1000 : sT.getD now1 * 1000 ≤ eT.getD now2 * 1000 :=
    mul_le_mul_of_nonneg_right h (by norm_num)
  have hmono := pyIntQ_mono h1000
  simpa [generate_test_result] using hmono

/-- Witness for C5 at a concrete explicit window. -/
theorem claim5_one_write_start_le_stop_witness :
    Option.getD (some (0 : ℚ)) 0 ≤ Option.getD (some 10) 1
    ∧ (((generate_test_result "u" ruW 0 1 fsEmpty "Relay Test" "PASSED" (some 0) (some 10)
          none [] none none none none 2).2).length = 1
      ∧ (generate_test_result "u" ruW 0 1 fsEmpty "Relay Test" "PASSED" (some 0) (some 10)
          none [] none none none none 2).1.start
        ≤ (generate_test_result "u" ruW 0 1 fsEmpty "Relay Test" "PASSED" (some 0) (some 10)
          none [] none none none none 2).1.stop) := by
  exact ⟨by decide, claim5_one_write_start_le_stop "u" ruW 0 1 fsEmpty "Relay Test" "PASSED"
    (some 0) (some 10) none [] none none none none 2 (by decide)⟩

end AllureSpec
